import Mathlib

/-!
PlatformAdmin admission webhook

A shallow embedding of
`pkg/yurtmanager/webhook/platformadmin/v1alpha1/platformadmin_validation.go`
and the properties of its validation functions.

Modelling conventions.

* A Go slice is a `List`; the `nil` slice and the empty slice are both `[]`
  (the source only ever tests `len(..) > 0` and `!= nil` on slices that are
  either `nil` or non-empty literals).
* `webhook.Client.List` is a read of cluster state that may fail.  The client is
  a snapshot holding the answer of each of the two listings: either the error
  (its `Error()` text) or the items.
* `field.Invalid`, `field.NewPath`, `apierrors.NewBadRequest` and
  `apierrors.NewInvalid` are library constructors; they are records here.
-/

namespace PlatformAdminWebhook

/-! ## Data model -/

/-- The part of `unitv1beta1.NodePool` the validator reads: `ObjectMeta.Name`. -/
structure NodePool where
  Name : String
deriving DecidableEq

/-- The part of `v1alpha1.PlatformAdmin` the validator reads: `Name` and
`Spec.NodePools`. -/
structure PlatformAdmin where
  Name : String
  NodePools : List String
deriving DecidableEq

/-- The `value interface{}` argument of `field.Invalid`: the source passes
either a `[]string` or a single `string`. -/
inductive BadValue where
  | strings (l : List String)
  | string (s : String)
deriving DecidableEq

/-- The error type of a `field.Error`; `field.Invalid` is the only constructor
the source uses. -/
inductive ErrorType where
  | ErrorTypeInvalid
deriving DecidableEq

/-- A `field.Error`. -/
structure FieldError where
  ErrType : ErrorType
  Field : String
  BadValue : BadValue
  Detail : String
deriving DecidableEq

/-- A `field.ErrorList`. -/
abbrev ErrorList := List FieldError

/-- A `field.Path`, root first. -/
abbrev Path := List String

/-- `field.NewPath(name, moreNames...)`. -/
def NewPath (name : String) (moreNames : List String) : Path :=
  name :: moreNames

/-- `(*field.Path).String()` for a path of plain names: joined with dots. -/
def Path.String : Path → String
  | [] => ""
  | [n] => n
  | n :: rest => n ++ "." ++ Path.String rest

/-- `field.Invalid(path, value, detail)`. -/
def Invalid (path : Path) (value : BadValue) (detail : String) : FieldError :=
  { ErrType := ErrorType.ErrorTypeInvalid, Field := Path.String path,
    BadValue := value, Detail := detail }

/-- The answers of the two `Client.List` calls: the node pool listing and the
PlatformAdmin listing, each either an error text or the items. -/
structure Client where
  ListNodePools : Except String (List NodePool)
  ListPlatformAdmins : Except String (List PlatformAdmin)

/-- The `PlatformAdminHandler` receiver. -/
structure PlatformAdminHandler where
  Client : Client

/-- A `schema.GroupKind`. -/
structure GroupKind where
  Group : String
  Kind : String
deriving DecidableEq

/-- A `schema.GroupVersion`; `v1alpha1.GroupVersion` is declared outside this
file and is passed to the entry points. -/
structure GroupVersion where
  Group : String
  Version : String
deriving DecidableEq

/-- `gv.WithKind(kind).GroupKind()`. -/
def GroupVersion.WithKindGroupKind (gv : GroupVersion) (kind : String) : GroupKind :=
  { Group := gv.Group, Kind := kind }

/-- The two API errors the entry points build. -/
inductive APIError where
  | BadRequest (reason : String)
  | Invalid (qualifiedKind : GroupKind) (name : String) (errs : ErrorList)
deriving DecidableEq

/-- `apierrors.NewBadRequest`. -/
def NewBadRequest (reason : String) : APIError := APIError.BadRequest reason

/-- `apierrors.NewInvalid`. -/
def NewInvalid (qualifiedKind : GroupKind) (name : String) (errs : ErrorList) : APIError :=
  APIError.Invalid qualifiedKind name errs

/-- A `runtime.Object` as the type assertion sees it: a `*v1alpha1.PlatformAdmin`
or a value of another dynamic type, of which `%T` prints `typeName`. -/
inductive Object where
  | platformAdmin (pa : PlatformAdmin)
  | other (typeName : String)
deriving DecidableEq

/-- `admission.Warnings`. -/
abbrev Warnings := List String

/-! ## The map of known pools (lines 90-93) -/

/-- A Go `map[string]bool`: a missing key reads as `false`. -/
abbrev BoolMap := String → Bool

/-- `make(map[string]bool)`. -/
def BoolMap.empty : BoolMap := fun _ => false

/-- `m[k] = true`. -/
def BoolMap.setTrue (m : BoolMap) (k : String) : BoolMap :=
  fun x => if x = k then true else m x

/-- The loop of lines 91-93: every listed pool name is set to `true`. -/
def buildNodePoolMap (items : List NodePool) : BoolMap :=
  items.foldl (fun m nodePool => BoolMap.setTrue m nodePool.Name) BoolMap.empty

/-! ## The missing-pool loop (lines 95-100) -/

/-- The loop of lines 96-100, started from the slice `invalidPools`. -/
def collectInvalidPools (nodePoolMap : BoolMap) :
    List String → List String → List String
  | invalidPools, [] => invalidPools
  | invalidPools, poolName :: rest =>
    if !nodePoolMap poolName then
      collectInvalidPools nodePoolMap (invalidPools ++ [poolName]) rest
    else
      collectInvalidPools nodePoolMap invalidPools rest

/-! ## The claim scan (lines 115-125) -/

/-- Modelled from the spec: `util.Contains(slice, s)` of
`pkg/yurtmanager/controller/platformadmin/utils`, which is not part of the
sources at hand; the spec describes it as testing membership of the name among
the object's claimed pools. -/
def Contains : List String → String → Bool
  | [], _ => false
  | item :: rest, s => if item = s then true else Contains rest s

/-- The inner loop of lines 117-123: the first name of the candidate's pool
list that `other` contains, if any. -/
def scanPoolNames (otherPools : List String) : List String → Option String
  | [] => none
  | poolName :: rest =>
    if Contains otherPools poolName then some poolName
    else scanPoolNames otherPools rest

/-- The outer loop of lines 115-125: the pool name of the first return inside
the loops, or `none` when the loops run to their end. -/
def scanPlatformAdmins (platformAdmin : PlatformAdmin) :
    List PlatformAdmin → Option String
  | [] => none
  | other :: rest =>
    if platformAdmin.Name ≠ other.Name then
      match scanPoolNames other.NodePools platformAdmin.NodePools with
      | some poolName => some poolName
      | none => scanPlatformAdmins platformAdmin rest
    else
      scanPlatformAdmins platformAdmin rest

/-! ## The validator -/

/-- The source function `validatePlatformAdminWithNodePools` (lines 81-128). -/
def validatePlatformAdminWithNodePools (webhook : PlatformAdminHandler)
    (platformAdmin : PlatformAdmin) : ErrorList :=
  match webhook.Client.ListNodePools with
  | Except.error err =>
    [Invalid (NewPath "spec" ["nodePools"]) (BadValue.strings platformAdmin.NodePools)
      ("can not list nodepools, cause" ++ err)]
  | Except.ok nodePools =>
    let nodePoolMap := buildNodePoolMap nodePools
    let invalidPools := collectInvalidPools nodePoolMap [] platformAdmin.NodePools
    if invalidPools.length > 0 then
      [Invalid (NewPath "spec" ["nodePools"]) (BadValue.strings invalidPools)
        "can not find the nodepools"]
    else
      match webhook.Client.ListPlatformAdmins with
      | Except.error err =>
        [Invalid (NewPath "spec" ["nodePools"]) (BadValue.strings platformAdmin.NodePools)
          ("can not list platformadmins, cause" ++ err)]
      | Except.ok platformadmins =>
        match scanPlatformAdmins platformAdmin platformadmins with
        | some poolName =>
          [Invalid (NewPath "spec" ["nodePools"]) (BadValue.string poolName)
            "already used by other platformadmin instance"]
        | none => []

/-- The source function `validate` (lines 73-79). -/
def validate (webhook : PlatformAdminHandler) (platformAdmin : PlatformAdmin) : ErrorList :=
  let nodePoolErrs := validatePlatformAdminWithNodePools webhook platformAdmin
  if nodePoolErrs ≠ [] then nodePoolErrs else []

/-! ## The admission entry points -/

/-- The source function `ValidateCreate` (lines 34-46). -/
def ValidateCreate (gv : GroupVersion) (webhook : PlatformAdminHandler) (obj : Object) :
    Warnings × Option APIError :=
  match obj with
  | Object.other typeName =>
    ([], some (NewBadRequest ("expected a PlatformAdmin but got a " ++ typeName)))
  | Object.platformAdmin platformAdmin =>
    let allErrs := validate webhook platformAdmin
    if allErrs.length > 0 then
      ([], some (NewInvalid (gv.WithKindGroupKind "PlatformAdmin") platformAdmin.Name allErrs))
    else
      ([], none)

/-- The source function `ValidateUpdate` (lines 49-66). -/
def ValidateUpdate (gv : GroupVersion) (webhook : PlatformAdminHandler)
    (oldObj newObj : Object) : Warnings × Option APIError :=
  match newObj with
  | Object.other typeName =>
    ([], some (NewBadRequest ("expected a PlatformAdmin but got a " ++ typeName)))
  | Object.platformAdmin newPlatformAdmin =>
    match oldObj with
    | Object.other typeName =>
      ([], some (NewBadRequest ("expected a PlatformAdmin but got a " ++ typeName)))
    | Object.platformAdmin oldPlatformAdmin =>
      let newErrorList := validate webhook newPlatformAdmin
      let oldErrorList := validate webhook oldPlatformAdmin
      let allErrs := newErrorList ++ oldErrorList
      if allErrs.length > 0 then
        ([], some (NewInvalid (gv.WithKindGroupKind "PlatformAdmin") newPlatformAdmin.Name allErrs))
      else
        ([], none)

/-- The source function `ValidateDelete` (lines 69-71). -/
def ValidateDelete (_webhook : PlatformAdminHandler) (_obj : Object) :
    Warnings × Option APIError :=
  ([], none)

/-! ## Vocabulary of the properties -/

/-- The text `sub` occurs inside the text `s`. -/
def containsText (s sub : String) : Prop := List.IsInfix sub.data s.data

instance (s sub : String) : Decidable (containsText s sub) := by
  unfold containsText; infer_instance

/-- An entry point rejects when it returns an error. -/
def rejects (r : Warnings × Option APIError) : Prop := r.2 ≠ none

/-- An entry point accepts when it returns no warnings and no error. -/
def accepts (r : Warnings × Option APIError) : Prop := r = ([], none)

/-- The field every error of the validator is reported at. -/
def nodePoolsField : String := "spec.nodePools"

/-- The names of the pools of a pool catalog. -/
def poolNames (nodePools : List NodePool) : List String := nodePools.map (fun np => np.Name)


/-- The requested names that the pool catalog does not hold, in the candidate's
order, duplicates kept. -/
def missingPools (platformAdmin : PlatformAdmin) (nodePools : List NodePool) : List String :=
  platformAdmin.NodePools.filter (fun n => decide (n ∉ poolNames nodePools))

/-- The catalog entry `other` is another object than the candidate (objects are
identified by name) and claims one of the candidate's pools. -/
def conflictsWith (platformAdmin other : PlatformAdmin) : Prop :=
  other.Name ≠ platformAdmin.Name ∧ ∃ n ∈ platformAdmin.NodePools, n ∈ other.NodePools

instance (platformAdmin other : PlatformAdmin) : Decidable (conflictsWith platformAdmin other) := by
  unfold conflictsWith; infer_instance

/-- The first catalog entry, in catalog order, that conflicts with the
candidate. -/
def firstConflictingObject (platformAdmin : PlatformAdmin) (admins : List PlatformAdmin) :
    Option PlatformAdmin :=
  admins.find? (fun other => decide (conflictsWith platformAdmin other))

/-- The first name, in the candidate's own order, that the pool list of `other`
contains. -/
def firstSharedPool (platformAdmin other : PlatformAdmin) : Option String :=
  platformAdmin.NodePools.find? (fun n => decide (n ∈ other.NodePools))

/-- No pool name occurs in the pool lists of two different entries of the
catalog. -/
def ExclusiveClaims (admins : List PlatformAdmin) : Prop :=
  admins.Pairwise (fun a b => ∀ n, n ∈ a.NodePools → n ∉ b.NodePools)

/-- The names of the catalog entries are pairwise distinct. -/
def DistinctNames (admins : List PlatformAdmin) : Prop :=
  (admins.map (fun a => a.Name)).Nodup

/-- The catalog after the candidate has been stored: the entry with the
candidate's name is removed and the candidate is inserted. -/
def storeObject (platformAdmin : PlatformAdmin) (admins : List PlatformAdmin) :
    List PlatformAdmin :=
  admins.filter (fun a => decide (a.Name ≠ platformAdmin.Name)) ++ [platformAdmin]

/-- The reason text of a missing-pool error. -/
def reasonNotFound : String := "can not find the nodepools"

/-- The reason text of a claim conflict. -/
def reasonAlreadyUsed : String := "already used by other platformadmin instance"

/-- The error list an entry point's answer carries: the causes of an invalid
error, nothing otherwise. -/
def carriedErrors (r : Warnings × Option APIError) : ErrorList :=
  match r.2 with
  | some (APIError.Invalid _ _ errs) => errs
  | _ => []

/-- The reasons of an error list, in order: empty for an accepted candidate,
the reported reasons for a rejected one. -/
def reasons (errs : ErrorList) : List String := errs.map (fun e => e.Detail)

/-- Two lists of names hold the same set of names. -/
def sameNames (l₁ l₂ : List String) : Prop :=
  (∀ n ∈ l₁, n ∈ l₂) ∧ (∀ n ∈ l₂, n ∈ l₁)

instance (l₁ l₂ : List String) : Decidable (sameNames l₁ l₂) := by
  unfold sameNames; infer_instance

/-- Two PlatformAdmins have the same name and claim the same set of pools. -/
def sameObject (a b : PlatformAdmin) : Prop :=
  a.Name = b.Name ∧ sameNames a.NodePools b.NodePools

instance (a b : PlatformAdmin) : Decidable (sameObject a b) := by
  unfold sameObject; infer_instance

/-- Two PlatformAdmin catalogs hold the same objects up to the order of the
entries and up to the order and repetition of the names inside each pool
list. -/
def sameCatalog (c₁ c₂ : List PlatformAdmin) : Prop :=
  (∀ a ∈ c₁, ∃ b ∈ c₂, sameObject a b) ∧ (∀ b ∈ c₂, ∃ a ∈ c₁, sameObject a b)

instance (c₁ c₂ : List PlatformAdmin) : Decidable (sameCatalog c₁ c₂) := by
  unfold sameCatalog; infer_instance

/-- The catalog entries whose name differs from the candidate's. -/
def otherEntries (platformAdmin : PlatformAdmin) (admins : List PlatformAdmin) :
    List PlatformAdmin :=
  admins.filter (fun a => decide (a.Name ≠ platformAdmin.Name))

/-- Some pool name occurs in the pool lists of two different objects (entries
with different names) of the catalog. -/
def DuplicateClaim (admins : List PlatformAdmin) : Prop :=
  ∃ a ∈ admins, ∃ b ∈ admins, a.Name ≠ b.Name ∧ ∃ n ∈ a.NodePools, n ∈ b.NodePools

instance (admins : List PlatformAdmin) : Decidable (DuplicateClaim admins) := by
  unfold DuplicateClaim; infer_instance

/-! ## Lemmas on the loops -/

theorem foldl_setTrue_apply (items : List NodePool) (m : BoolMap) (n : String) :
    items.foldl (fun m nodePool => BoolMap.setTrue m nodePool.Name) m n = true ↔
      m n = true ∨ n ∈ poolNames items := by
  induction items generalizing m with
  | nil => simp [poolNames]
  | cons np rest ih =>
    rw [List.foldl_cons, ih]
    simp only [BoolMap.setTrue, poolNames, List.map_cons, List.mem_cons]
    by_cases h : n = np.Name
    · simp [h]
    · simp [h]

theorem buildNodePoolMap_apply (items : List NodePool) (n : String) :
    buildNodePoolMap items n = true ↔ n ∈ poolNames items := by
  unfold buildNodePoolMap
  rw [foldl_setTrue_apply]
  simp [BoolMap.empty]

theorem collectInvalidPools_eq (m : BoolMap) (acc l : List String) :
    collectInvalidPools m acc l = acc ++ l.filter (fun p => !m p) := by
  induction l generalizing acc with
  | nil => simp [collectInvalidPools]
  | cons p rest ih =>
    unfold collectInvalidPools
    by_cases h : m p = true
    · simp [h, ih]
    · simp [h, ih]

theorem collectInvalidPools_build (platformAdmin : PlatformAdmin) (nodePools : List NodePool) :
    collectInvalidPools (buildNodePoolMap nodePools) [] platformAdmin.NodePools =
      missingPools platformAdmin nodePools := by
  rw [collectInvalidPools_eq, List.nil_append]
  unfold missingPools
  apply List.filter_congr
  intro n _
  by_cases h : n ∈ poolNames nodePools
  · simp [h, (buildNodePoolMap_apply nodePools n).2 h]
  · have h2 : buildNodePoolMap nodePools n = false := by
      cases hb : buildNodePoolMap nodePools n with
      | false => rfl
      | true => exact absurd ((buildNodePoolMap_apply nodePools n).1 hb) h
    simp [h, h2]

theorem Contains_iff (l : List String) (s : String) : Contains l s = true ↔ s ∈ l := by
  induction l with
  | nil => simp [Contains]
  | cons item rest ih =>
    unfold Contains
    by_cases h : item = s
    · simp [h]
    · have h2 : ¬ s = item := fun e => h e.symm
      simp [h, h2, ih]

theorem scanPoolNames_eq_find (otherPools l : List String) :
    scanPoolNames otherPools l = l.find? (fun n => decide (n ∈ otherPools)) := by
  induction l with
  | nil => rfl
  | cons p rest ih =>
    unfold scanPoolNames
    by_cases h : p ∈ otherPools
    · simp [h, (Contains_iff otherPools p).2 h]
    · have h2 : Contains otherPools p = false := by
        cases hb : Contains otherPools p with
        | false => rfl
        | true => exact absurd ((Contains_iff otherPools p).1 hb) h
      simp [h, h2, ih]

theorem scanPoolNames_eq_none (otherPools l : List String) :
    scanPoolNames otherPools l = none ↔ ∀ n ∈ l, n ∉ otherPools := by
  rw [scanPoolNames_eq_find]
  simp

theorem conflictsWith_of_scan (platformAdmin other : PlatformAdmin) (p : String)
    (hn : platformAdmin.Name ≠ other.Name)
    (hs : scanPoolNames other.NodePools platformAdmin.NodePools = some p) :
    conflictsWith platformAdmin other := by
  rw [scanPoolNames_eq_find] at hs
  refine ⟨fun e => hn e.symm, p, List.mem_of_find?_eq_some hs, ?_⟩
  have := List.find?_some hs
  simpa using this

theorem not_conflictsWith_of_scan (platformAdmin other : PlatformAdmin)
    (hs : scanPoolNames other.NodePools platformAdmin.NodePools = none) :
    ¬ conflictsWith platformAdmin other := by
  rintro ⟨_, n, hn, hmem⟩
  exact (scanPoolNames_eq_none _ _).1 hs n hn hmem

theorem scanPlatformAdmins_eq (platformAdmin : PlatformAdmin) (admins : List PlatformAdmin) :
    scanPlatformAdmins platformAdmin admins =
      (firstConflictingObject platformAdmin admins).bind (firstSharedPool platformAdmin) := by
  induction admins with
  | nil => rfl
  | cons other rest ih =>
    unfold scanPlatformAdmins firstConflictingObject
    by_cases hn : platformAdmin.Name = other.Name
    · have hc : ¬ conflictsWith platformAdmin other := fun h => h.1 hn.symm
      simp only [hn, ne_eq, not_true_eq_false, if_false, List.find?_cons, hc, decide_False]
      exact ih
    · cases hs : scanPoolNames other.NodePools platformAdmin.NodePools with
      | none =>
        have hc := not_conflictsWith_of_scan platformAdmin other hs
        simp only [ne_eq, hn, not_false_eq_true, if_true, List.find?_cons, hc, decide_False]
        exact ih
      | some p =>
        have hc := conflictsWith_of_scan platformAdmin other p hn hs
        simp only [ne_eq, hn, not_false_eq_true, if_true, List.find?_cons, hc, decide_True,
          Option.some_bind]
        rw [scanPoolNames_eq_find] at hs
        exact hs.symm

theorem scanPlatformAdmins_eq_none (platformAdmin : PlatformAdmin) (admins : List PlatformAdmin) :
    scanPlatformAdmins platformAdmin admins = none ↔
      ∀ other ∈ admins, ¬ conflictsWith platformAdmin other := by
  induction admins with
  | nil => simp [scanPlatformAdmins]
  | cons other rest ih =>
    unfold scanPlatformAdmins
    by_cases hn : platformAdmin.Name = other.Name
    · have hc : ¬ conflictsWith platformAdmin other := fun h => h.1 hn.symm
      simp only [hn, ne_eq, not_true_eq_false, if_false, List.mem_cons, forall_eq_or_imp, hc,
        not_false_eq_true, true_and]
      exact ih
    · cases hs : scanPoolNames other.NodePools platformAdmin.NodePools with
      | none =>
        have hc := not_conflictsWith_of_scan platformAdmin other hs
        simp only [ne_eq, hn, not_false_eq_true, if_true, List.mem_cons, forall_eq_or_imp, hc,
          true_and]
        exact ih
      | some p =>
        have hc := conflictsWith_of_scan platformAdmin other p hn hs
        simp [hn, hc]

/-! ## Lemmas on the validator: one per return statement -/

theorem nodePoolsField_eq : Path.String (NewPath "spec" ["nodePools"]) = nodePoolsField := by
  decide

theorem validate_eq (webhook : PlatformAdminHandler) (platformAdmin : PlatformAdmin) :
    validate webhook platformAdmin =
      validatePlatformAdminWithNodePools webhook platformAdmin := by
  unfold validate
  by_cases h : validatePlatformAdminWithNodePools webhook platformAdmin = []
  · simp [h]
  · simp [h]

theorem validate_of_pool_listing_error (webhook : PlatformAdminHandler)
    (platformAdmin : PlatformAdmin) (err : String)
    (h : webhook.Client.ListNodePools = Except.error err) :
    validate webhook platformAdmin =
      [{ ErrType := ErrorType.ErrorTypeInvalid, Field := nodePoolsField,
         BadValue := BadValue.strings platformAdmin.NodePools,
         Detail := "can not list nodepools, cause" ++ err }] := by
  rw [validate_eq]
  unfold validatePlatformAdminWithNodePools
  rw [h]
  simp only [Invalid, nodePoolsField_eq]

theorem validate_of_missing (webhook : PlatformAdminHandler)
    (platformAdmin : PlatformAdmin) (nodePools : List NodePool)
    (h : webhook.Client.ListNodePools = Except.ok nodePools)
    (hm : missingPools platformAdmin nodePools ≠ []) :
    validate webhook platformAdmin =
      [{ ErrType := ErrorType.ErrorTypeInvalid, Field := nodePoolsField,
         BadValue := BadValue.strings (missingPools platformAdmin nodePools),
         Detail := reasonNotFound }] := by
  rw [validate_eq]
  unfold validatePlatformAdminWithNodePools
  rw [h]
  simp only [collectInvalidPools_build, Invalid, nodePoolsField_eq, reasonNotFound]
  rw [if_pos (List.length_pos.2 hm)]

theorem validate_of_admin_listing_error (webhook : PlatformAdminHandler)
    (platformAdmin : PlatformAdmin) (nodePools : List NodePool) (err : String)
    (h : webhook.Client.ListNodePools = Except.ok nodePools)
    (hm : missingPools platformAdmin nodePools = [])
    (ha : webhook.Client.ListPlatformAdmins = Except.error err) :
    validate webhook platformAdmin =
      [{ ErrType := ErrorType.ErrorTypeInvalid, Field := nodePoolsField,
         BadValue := BadValue.strings platformAdmin.NodePools,
         Detail := "can not list platformadmins, cause" ++ err }] := by
  rw [validate_eq]
  unfold validatePlatformAdminWithNodePools
  rw [h]
  simp only [collectInvalidPools_build, Invalid, nodePoolsField_eq, hm, ha]
  simp

theorem validate_of_scan (webhook : PlatformAdminHandler)
    (platformAdmin : PlatformAdmin) (nodePools : List NodePool) (admins : List PlatformAdmin)
    (h : webhook.Client.ListNodePools = Except.ok nodePools)
    (hm : missingPools platformAdmin nodePools = [])
    (ha : webhook.Client.ListPlatformAdmins = Except.ok admins) :
    validate webhook platformAdmin =
      match scanPlatformAdmins platformAdmin admins with
      | some poolName =>
        [{ ErrType := ErrorType.ErrorTypeInvalid, Field := nodePoolsField,
           BadValue := BadValue.string poolName, Detail := reasonAlreadyUsed }]
      | none => [] := by
  rw [validate_eq]
  unfold validatePlatformAdminWithNodePools
  rw [h]
  simp only [collectInvalidPools_build, Invalid, nodePoolsField_eq, hm, ha, reasonAlreadyUsed]
  simp

theorem missingPools_eq_nil (platformAdmin : PlatformAdmin) (nodePools : List NodePool) :
    missingPools platformAdmin nodePools = [] ↔
      ∀ n ∈ platformAdmin.NodePools, n ∈ poolNames nodePools := by
  unfold missingPools
  simp [List.filter_eq_nil_iff]

theorem validate_eq_nil_iff (platformAdmin : PlatformAdmin) (nodePools : List NodePool)
    (admins : List PlatformAdmin) :
    validate ⟨⟨Except.ok nodePools, Except.ok admins⟩⟩ platformAdmin = [] ↔
      (∀ n ∈ platformAdmin.NodePools, n ∈ poolNames nodePools) ∧
        ∀ other ∈ admins, ¬ conflictsWith platformAdmin other := by
  by_cases hm : missingPools platformAdmin nodePools = []
  · rw [validate_of_scan ⟨⟨Except.ok nodePools, Except.ok admins⟩⟩ platformAdmin nodePools
      admins rfl hm rfl, ← scanPlatformAdmins_eq_none, ← missingPools_eq_nil]
    cases hs : scanPlatformAdmins platformAdmin admins with
    | none => simp [hm]
    | some p => simp
  · rw [validate_of_missing ⟨⟨Except.ok nodePools, Except.ok admins⟩⟩ platformAdmin nodePools
      rfl hm, ← missingPools_eq_nil]
    simp [hm]

theorem ValidateCreate_platformAdmin (gv : GroupVersion) (webhook : PlatformAdminHandler)
    (platformAdmin : PlatformAdmin) :
    ValidateCreate gv webhook (Object.platformAdmin platformAdmin) =
      if validate webhook platformAdmin = [] then ([], none)
      else ([], some (APIError.Invalid (gv.WithKindGroupKind "PlatformAdmin")
        platformAdmin.Name (validate webhook platformAdmin))) := by
  unfold ValidateCreate
  by_cases h : validate webhook platformAdmin = []
  · simp [h]
  · simp [h, List.length_pos.2 h, NewInvalid]

theorem rejects_ValidateCreate_iff (gv : GroupVersion) (webhook : PlatformAdminHandler)
    (platformAdmin : PlatformAdmin) :
    rejects (ValidateCreate gv webhook (Object.platformAdmin platformAdmin)) ↔
      validate webhook platformAdmin ≠ [] := by
  rw [ValidateCreate_platformAdmin]
  by_cases h : validate webhook platformAdmin = []
  · simp [h, rejects]
  · simp [h, rejects]

theorem containsText_append_right (a b : String) : containsText (a ++ b) b := by
  unfold containsText
  rw [String.data_append]
  exact (List.suffix_append a.data b.data).isInfix

theorem containsText_append_left (a sub b : String) (h : containsText a sub) :
    containsText (a ++ b) sub := by
  unfold containsText at h ⊢
  rw [String.data_append]
  exact List.IsInfix.trans h (List.prefix_append a.data b.data).isInfix

theorem listing_reason_ne_alreadyUsed (err : String) :
    "can not list nodepools, cause" ++ err ≠ reasonAlreadyUsed ∧
      "can not list platformadmins, cause" ++ err ≠ reasonAlreadyUsed := by
  constructor
  · intro h
    have := congrArg String.data h
    rw [String.data_append] at this
    simp [reasonAlreadyUsed] at this
  · intro h
    have := congrArg String.data h
    rw [String.data_append] at this
    simp [reasonAlreadyUsed] at this

/-! ## Properties of the validator -/

/-- C1: when the pool listing succeeds and at least one requested name is absent
from the pool catalog, `validate` returns exactly one error, at `spec.nodePools`,
with reason "can not find the nodepools", whose value is the candidate's pool
list filtered to the absent names (order and duplicates kept); the answer of
the PlatformAdmin listing, content or failure, plays no part. -/
theorem validate_reports_missing_pools (platformAdmin : PlatformAdmin)
    (nodePools : List NodePool) (admins : Except String (List PlatformAdmin))
    (h : ∃ n ∈ platformAdmin.NodePools, n ∉ poolNames nodePools) :
    validate ⟨⟨Except.ok nodePools, admins⟩⟩ platformAdmin =
      [{ ErrType := ErrorType.ErrorTypeInvalid, Field := "spec.nodePools",
         BadValue := BadValue.strings
           (platformAdmin.NodePools.filter (fun n => decide (n ∉ poolNames nodePools))),
         Detail := "can not find the nodepools" }] := by
  have hm : missingPools platformAdmin nodePools ≠ [] := by
    intro hnil
    obtain ⟨n, hn, habs⟩ := h
    exact habs ((missingPools_eq_nil platformAdmin nodePools).1 hnil n hn)
  exact validate_of_missing ⟨⟨Except.ok nodePools, admins⟩⟩ platformAdmin nodePools rfl hm

/-- Witness of C1, the scenario of the specification: pools A and B exist, Z
claims A and D; the value is the list holding D only, also when another object
claims A and when the PlatformAdmin listing fails. -/
theorem validate_reports_missing_pools_witness :
    (∃ n ∈ (PlatformAdmin.mk "Z" ["A", "D"]).NodePools,
        n ∉ poolNames [NodePool.mk "A", NodePool.mk "B"]) ∧
      validate ⟨⟨Except.ok [NodePool.mk "A", NodePool.mk "B"],
          Except.ok [PlatformAdmin.mk "X" ["A"]]⟩⟩ (PlatformAdmin.mk "Z" ["A", "D"]) =
        [{ ErrType := ErrorType.ErrorTypeInvalid, Field := "spec.nodePools",
           BadValue := BadValue.strings ["D"], Detail := "can not find the nodepools" }] ∧
      validate ⟨⟨Except.ok [NodePool.mk "A", NodePool.mk "B"],
          Except.error "timeout"⟩⟩ (PlatformAdmin.mk "Z" ["A", "D"]) =
        [{ ErrType := ErrorType.ErrorTypeInvalid, Field := "spec.nodePools",
           BadValue := BadValue.strings ["D"], Detail := "can not find the nodepools" }] :=
  ⟨⟨"D", by decide, by decide⟩,
   (validate_reports_missing_pools (PlatformAdmin.mk "Z" ["A", "D"])
      [NodePool.mk "A", NodePool.mk "B"] (Except.ok [PlatformAdmin.mk "X" ["A"]])
      ⟨"D", by decide, by decide⟩).trans (by decide),
   (validate_reports_missing_pools (PlatformAdmin.mk "Z" ["A", "D"])
      [NodePool.mk "A", NodePool.mk "B"] (Except.error "timeout")
      ⟨"D", by decide, by decide⟩).trans (by decide)⟩

/-- C2: when both listings succeed, every requested name exists and at least one
of them is in the pool list of a catalog PlatformAdmin that is another object
than the candidate (its name differs), `validate` returns one error with reason
"already used by other platformadmin instance", and no error with reason
"can not find the nodepools". -/
theorem validate_reports_claimed_pool (platformAdmin : PlatformAdmin)
    (nodePools : List NodePool) (admins : List PlatformAdmin)
    (hall : ∀ n ∈ platformAdmin.NodePools, n ∈ poolNames nodePools)
    (hclaim : ∃ other ∈ admins, other.Name ≠ platformAdmin.Name ∧
      ∃ n ∈ platformAdmin.NodePools, n ∈ other.NodePools) :
    (∃ p, validate ⟨⟨Except.ok nodePools, Except.ok admins⟩⟩ platformAdmin =
        [{ ErrType := ErrorType.ErrorTypeInvalid, Field := "spec.nodePools",
           BadValue := BadValue.string p,
           Detail := "already used by other platformadmin instance" }]) ∧
      validate ⟨⟨Except.ok nodePools, Except.ok admins⟩⟩ platformAdmin ≠ [] ∧
      ∀ e ∈ validate ⟨⟨Except.ok nodePools, Except.ok admins⟩⟩ platformAdmin,
        e.Detail ≠ "can not find the nodepools" := by
  have hm := (missingPools_eq_nil platformAdmin nodePools).2 hall
  have hv := validate_of_scan ⟨⟨Except.ok nodePools, Except.ok admins⟩⟩ platformAdmin
    nodePools admins rfl hm rfl
  cases hs : scanPlatformAdmins platformAdmin admins with
  | none =>
    obtain ⟨other, ho, hc⟩ := hclaim
    exact absurd hc ((scanPlatformAdmins_eq_none platformAdmin admins).1 hs other ho)
  | some p =>
    rw [hs] at hv
    rw [hv]
    refine ⟨⟨p, rfl⟩, by simp, ?_⟩
    intro e he
    rw [List.mem_singleton] at he
    rw [he]
    simp only [reasonAlreadyUsed]
    decide

/-- Witness of C2: pools A, B and C exist, X claims A, the candidate Y claims
A. -/
theorem validate_reports_claimed_pool_witness :
    (∃ p, validate ⟨⟨Except.ok [NodePool.mk "A", NodePool.mk "B", NodePool.mk "C"],
          Except.ok [PlatformAdmin.mk "X" ["A"]]⟩⟩ (PlatformAdmin.mk "Y" ["A"]) =
        [{ ErrType := ErrorType.ErrorTypeInvalid, Field := "spec.nodePools",
           BadValue := BadValue.string p,
           Detail := "already used by other platformadmin instance" }]) ∧
      validate ⟨⟨Except.ok [NodePool.mk "A", NodePool.mk "B", NodePool.mk "C"],
          Except.ok [PlatformAdmin.mk "X" ["A"]]⟩⟩ (PlatformAdmin.mk "Y" ["A"]) ≠ [] ∧
      ∀ e ∈ validate ⟨⟨Except.ok [NodePool.mk "A", NodePool.mk "B", NodePool.mk "C"],
          Except.ok [PlatformAdmin.mk "X" ["A"]]⟩⟩ (PlatformAdmin.mk "Y" ["A"]),
        e.Detail ≠ "can not find the nodepools" :=
  validate_reports_claimed_pool (PlatformAdmin.mk "Y" ["A"])
    [NodePool.mk "A", NodePool.mk "B", NodePool.mk "C"] [PlatformAdmin.mk "X" ["A"]]
    (by decide) ⟨PlatformAdmin.mk "X" ["A"], by decide, by decide, "A", by decide, by decide⟩

/-- C3: when both listings succeed, every requested name is the name of a pool
of the catalog and no catalog PlatformAdmin with another name than the
candidate's has any of those names in its pool list, `validate` returns the
empty error list and `ValidateCreate` accepts. -/
theorem validate_passes (gv : GroupVersion) (platformAdmin : PlatformAdmin)
    (nodePools : List NodePool) (admins : List PlatformAdmin)
    (hall : ∀ n ∈ platformAdmin.NodePools, n ∈ poolNames nodePools)
    (hfree : ∀ other ∈ admins, other.Name ≠ platformAdmin.Name →
      ∀ n ∈ platformAdmin.NodePools, n ∉ other.NodePools) :
    validate ⟨⟨Except.ok nodePools, Except.ok admins⟩⟩ platformAdmin = [] ∧
      accepts (ValidateCreate gv ⟨⟨Except.ok nodePools, Except.ok admins⟩⟩
        (Object.platformAdmin platformAdmin)) := by
  have hv : validate ⟨⟨Except.ok nodePools, Except.ok admins⟩⟩ platformAdmin = [] := by
    rw [validate_eq_nil_iff]
    refine ⟨hall, ?_⟩
    rintro other ho ⟨hne, n, hn, hmem⟩
    exact hfree other ho hne n hn hmem
  refine ⟨hv, ?_⟩
  rw [ValidateCreate_platformAdmin, if_pos hv]
  rfl

/-- Witness of C3: pools A, B and C exist, X claims A, the stored Y claims C,
the candidate Y claims B and C. -/
theorem validate_passes_witness :
    validate ⟨⟨Except.ok [NodePool.mk "A", NodePool.mk "B", NodePool.mk "C"],
        Except.ok [PlatformAdmin.mk "X" ["A"], PlatformAdmin.mk "Y" ["C"]]⟩⟩
        (PlatformAdmin.mk "Y" ["B", "C"]) = [] ∧
      accepts (ValidateCreate (GroupVersion.mk "iot.openyurt.io" "v1alpha1")
        ⟨⟨Except.ok [NodePool.mk "A", NodePool.mk "B", NodePool.mk "C"],
          Except.ok [PlatformAdmin.mk "X" ["A"], PlatformAdmin.mk "Y" ["C"]]⟩⟩
        (Object.platformAdmin (PlatformAdmin.mk "Y" ["B", "C"]))) :=
  validate_passes (GroupVersion.mk "iot.openyurt.io" "v1alpha1")
    (PlatformAdmin.mk "Y" ["B", "C"])
    [NodePool.mk "A", NodePool.mk "B", NodePool.mk "C"]
    [PlatformAdmin.mk "X" ["A"], PlatformAdmin.mk "Y" ["C"]] (by decide) (by decide)

/-- C4: sequential preservation of exclusive claims. In a PlatformAdmin catalog
with pairwise distinct names where no pool name occurs in the pool lists of two
different entries, storing a candidate that `validate` lets through against
that catalog (both listings succeeding), by removing the entry with its name
and inserting it, gives a catalog where again no pool name occurs in the pool
lists of two different entries (and the names stay pairwise distinct). -/
theorem store_preserves_exclusive_claims (platformAdmin : PlatformAdmin)
    (nodePools : List NodePool) (admins : List PlatformAdmin)
    (hnames : DistinctNames admins) (hexcl : ExclusiveClaims admins)
    (hvalid : validate ⟨⟨Except.ok nodePools, Except.ok admins⟩⟩ platformAdmin = []) :
    ExclusiveClaims (storeObject platformAdmin admins) ∧
      DistinctNames (storeObject platformAdmin admins) := by
  have hfree := ((validate_eq_nil_iff platformAdmin nodePools admins).1 hvalid).2
  constructor
  · unfold ExclusiveClaims storeObject
    rw [List.pairwise_append]
    refine ⟨List.Pairwise.filter _ hexcl, List.pairwise_singleton _ _, ?_⟩
    intro a ha b hb n hn hmem
    rw [List.mem_singleton] at hb
    subst hb
    rw [List.mem_filter] at ha
    exact hfree a ha.1 ⟨by simpa using ha.2, n, hmem, hn⟩
  · unfold DistinctNames storeObject
    rw [List.map_append, List.nodup_append]
    refine ⟨?_, List.nodup_singleton _, ?_⟩
    · exact List.Nodup.sublist (List.Sublist.map _ (List.filter_sublist _)) hnames
    · intro x hx hx2
      rw [List.map_singleton, List.mem_singleton] at hx2
      rw [List.mem_map] at hx
      obtain ⟨a, ha, hax⟩ := hx
      rw [List.mem_filter] at ha
      have : a.Name ≠ platformAdmin.Name := by simpa using ha.2
      exact this (hax.trans hx2)

/-- Witness of C4: X claims A, the stored Y claims C; the candidate Y claims B
and C and replaces its stored version. -/
theorem store_preserves_exclusive_claims_witness :
    DistinctNames [PlatformAdmin.mk "X" ["A"], PlatformAdmin.mk "Y" ["C"]] ∧
      ExclusiveClaims [PlatformAdmin.mk "X" ["A"], PlatformAdmin.mk "Y" ["C"]] ∧
      validate ⟨⟨Except.ok [NodePool.mk "A", NodePool.mk "B", NodePool.mk "C"],
        Except.ok [PlatformAdmin.mk "X" ["A"], PlatformAdmin.mk "Y" ["C"]]⟩⟩
        (PlatformAdmin.mk "Y" ["B", "C"]) = [] ∧
      storeObject (PlatformAdmin.mk "Y" ["B", "C"])
          [PlatformAdmin.mk "X" ["A"], PlatformAdmin.mk "Y" ["C"]] =
        [PlatformAdmin.mk "X" ["A"], PlatformAdmin.mk "Y" ["B", "C"]] ∧
      ExclusiveClaims (storeObject (PlatformAdmin.mk "Y" ["B", "C"])
        [PlatformAdmin.mk "X" ["A"], PlatformAdmin.mk "Y" ["C"]]) ∧
      DistinctNames (storeObject (PlatformAdmin.mk "Y" ["B", "C"])
        [PlatformAdmin.mk "X" ["A"], PlatformAdmin.mk "Y" ["C"]]) :=
  have hd : DistinctNames [PlatformAdmin.mk "X" ["A"], PlatformAdmin.mk "Y" ["C"]] := by
    unfold DistinctNames; decide
  have hx : ExclusiveClaims [PlatformAdmin.mk "X" ["A"], PlatformAdmin.mk "Y" ["C"]] := by
    unfold ExclusiveClaims; simp
  ⟨hd, hx, by decide, by decide,
    store_preserves_exclusive_claims (PlatformAdmin.mk "Y" ["B", "C"])
      [NodePool.mk "A", NodePool.mk "B", NodePool.mk "C"]
      [PlatformAdmin.mk "X" ["A"], PlatformAdmin.mk "Y" ["C"]] hd hx (by decide)⟩

/-- C5: for two PlatformAdmins, `ValidateUpdate` rejects exactly when
`validate` of the new or of the old object is non-empty; on rejection it
returns the invalid error of the PlatformAdmin kind, under the new object's
name, carrying `validate` of the new object followed by `validate` of the old
one; an update whose new state passes alone is rejected when the old state
fails. -/
theorem ValidateUpdate_validates_both (gv : GroupVersion) (webhook : PlatformAdminHandler)
    (oldPlatformAdmin newPlatformAdmin : PlatformAdmin) :
    (rejects (ValidateUpdate gv webhook (Object.platformAdmin oldPlatformAdmin)
        (Object.platformAdmin newPlatformAdmin)) ↔
      (validate webhook newPlatformAdmin ≠ [] ∨ validate webhook oldPlatformAdmin ≠ [])) ∧
    (rejects (ValidateUpdate gv webhook (Object.platformAdmin oldPlatformAdmin)
        (Object.platformAdmin newPlatformAdmin)) →
      ValidateUpdate gv webhook (Object.platformAdmin oldPlatformAdmin)
          (Object.platformAdmin newPlatformAdmin) =
        ([], some (APIError.Invalid (GroupKind.mk gv.Group "PlatformAdmin")
          newPlatformAdmin.Name
          (validate webhook newPlatformAdmin ++ validate webhook oldPlatformAdmin)))) ∧
    (validate webhook newPlatformAdmin = [] → validate webhook oldPlatformAdmin ≠ [] →
      rejects (ValidateUpdate gv webhook (Object.platformAdmin oldPlatformAdmin)
        (Object.platformAdmin newPlatformAdmin))) := by
  have key : ValidateUpdate gv webhook (Object.platformAdmin oldPlatformAdmin)
      (Object.platformAdmin newPlatformAdmin) =
      if validate webhook newPlatformAdmin ++ validate webhook oldPlatformAdmin = [] then
        ([], none)
      else ([], some (APIError.Invalid (GroupKind.mk gv.Group "PlatformAdmin")
        newPlatformAdmin.Name
        (validate webhook newPlatformAdmin ++ validate webhook oldPlatformAdmin))) := by
    unfold ValidateUpdate
    by_cases h : validate webhook newPlatformAdmin ++ validate webhook oldPlatformAdmin = []
    · simp only [h, List.length_nil, gt_iff_lt, lt_self_iff_false, if_false, if_true]
    · simp only [h, List.length_pos.2 h, gt_iff_lt, if_false, if_true, NewInvalid,
        GroupVersion.WithKindGroupKind]
  rw [key]
  by_cases h : validate webhook newPlatformAdmin ++ validate webhook oldPlatformAdmin = []
  · have h2 := List.append_eq_nil.1 h
    simp [h, h2.1, h2.2, rejects]
  · have h3 : validate webhook newPlatformAdmin ≠ [] ∨ validate webhook oldPlatformAdmin ≠ [] := by
      by_contra hc
      push_neg at hc
      exact h (by rw [hc.1, hc.2]; rfl)
    simp only [h, if_false, rejects]
    refine ⟨?_, ?_, ?_⟩
    · simp [h3]
    · intro _; trivial
    · intro _ _; simp

/-- Witness of C5: pool A exists and is unclaimed; the new state claims A and
passes alone, the old state claims the unknown pool D; the update is rejected
and carries the error of the old state under the new object's name. -/
theorem ValidateUpdate_validates_both_witness :
    validate ⟨⟨Except.ok [NodePool.mk "A"], Except.ok []⟩⟩ (PlatformAdmin.mk "Y" ["A"]) = [] ∧
      validate ⟨⟨Except.ok [NodePool.mk "A"], Except.ok []⟩⟩ (PlatformAdmin.mk "Y" ["D"]) ≠ [] ∧
      rejects (ValidateUpdate (GroupVersion.mk "iot.openyurt.io" "v1alpha1")
        ⟨⟨Except.ok [NodePool.mk "A"], Except.ok []⟩⟩
        (Object.platformAdmin (PlatformAdmin.mk "Y" ["D"]))
        (Object.platformAdmin (PlatformAdmin.mk "Y" ["A"]))) ∧
      ValidateUpdate (GroupVersion.mk "iot.openyurt.io" "v1alpha1")
          ⟨⟨Except.ok [NodePool.mk "A"], Except.ok []⟩⟩
          (Object.platformAdmin (PlatformAdmin.mk "Y" ["D"]))
          (Object.platformAdmin (PlatformAdmin.mk "Y" ["A"])) =
        ([], some (APIError.Invalid (GroupKind.mk "iot.openyurt.io" "PlatformAdmin") "Y"
          [{ ErrType := ErrorType.ErrorTypeInvalid, Field := "spec.nodePools",
             BadValue := BadValue.strings ["D"], Detail := "can not find the nodepools" }])) :=
  have hr := (ValidateUpdate_validates_both (GroupVersion.mk "iot.openyurt.io" "v1alpha1")
    ⟨⟨Except.ok [NodePool.mk "A"], Except.ok []⟩⟩ (PlatformAdmin.mk "Y" ["D"])
    (PlatformAdmin.mk "Y" ["A"])).2.2 (by decide) (by decide)
  ⟨by decide, by decide, hr,
    ((ValidateUpdate_validates_both (GroupVersion.mk "iot.openyurt.io" "v1alpha1")
      ⟨⟨Except.ok [NodePool.mk "A"], Except.ok []⟩⟩ (PlatformAdmin.mk "Y" ["D"])
      (PlatformAdmin.mk "Y" ["A"])).2.1 hr).trans (by decide)⟩

/-- C6: fail-closed on a listing failure. If the pool listing fails, or it
succeeds with every requested name present and the PlatformAdmin listing
fails, `validate` returns exactly one error, at `spec.nodePools`, whose value is
the candidate's whole pool list and whose reason contains the text of the
listing error; the result is not empty and `ValidateCreate` rejects. -/
theorem validate_fails_closed (webhook : PlatformAdminHandler)
    (platformAdmin : PlatformAdmin) (err : String)
    (h : webhook.Client.ListNodePools = Except.error err ∨
      ∃ nodePools, webhook.Client.ListNodePools = Except.ok nodePools ∧
        (∀ n ∈ platformAdmin.NodePools, n ∈ poolNames nodePools) ∧
        webhook.Client.ListPlatformAdmins = Except.error err) :
    (∃ reason, validate webhook platformAdmin =
        [{ ErrType := ErrorType.ErrorTypeInvalid, Field := "spec.nodePools",
           BadValue := BadValue.strings platformAdmin.NodePools, Detail := reason }] ∧
        containsText reason err) ∧
      validate webhook platformAdmin ≠ [] ∧
      ∀ gv, rejects (ValidateCreate gv webhook (Object.platformAdmin platformAdmin)) := by
  have main : ∃ reason, validate webhook platformAdmin =
        [{ ErrType := ErrorType.ErrorTypeInvalid, Field := "spec.nodePools",
           BadValue := BadValue.strings platformAdmin.NodePools, Detail := reason }] ∧
        containsText reason err := by
    rcases h with h | ⟨nodePools, hp, hall, ha⟩
    · exact ⟨_, validate_of_pool_listing_error webhook platformAdmin err h,
        containsText_append_right _ _⟩
    · exact ⟨_, validate_of_admin_listing_error webhook platformAdmin nodePools err hp
        ((missingPools_eq_nil platformAdmin nodePools).2 hall) ha,
        containsText_append_right _ _⟩
  have hne : validate webhook platformAdmin ≠ [] := by
    obtain ⟨reason, hr, _⟩ := main
    rw [hr]
    simp
  exact ⟨main, hne, fun gv => (rejects_ValidateCreate_iff gv webhook platformAdmin).2 hne⟩

/-- Witness of C6, one input for each listing: the pool listing fails with
"boom"; the pool listing succeeds with pool A, requested by the candidate, and
the PlatformAdmin listing fails with "boom". -/
theorem validate_fails_closed_witness :
    ((∃ reason, validate ⟨⟨Except.error "boom", Except.ok []⟩⟩ (PlatformAdmin.mk "Y" ["A"]) =
        [{ ErrType := ErrorType.ErrorTypeInvalid, Field := "spec.nodePools",
           BadValue := BadValue.strings ["A"], Detail := reason }] ∧
        containsText reason "boom") ∧
      validate ⟨⟨Except.error "boom", Except.ok []⟩⟩ (PlatformAdmin.mk "Y" ["A"]) ≠ [] ∧
      ∀ gv, rejects (ValidateCreate gv ⟨⟨Except.error "boom", Except.ok []⟩⟩
        (Object.platformAdmin (PlatformAdmin.mk "Y" ["A"])))) ∧
    ((∃ reason, validate ⟨⟨Except.ok [NodePool.mk "A"], Except.error "boom"⟩⟩
          (PlatformAdmin.mk "Y" ["A"]) =
        [{ ErrType := ErrorType.ErrorTypeInvalid, Field := "spec.nodePools",
           BadValue := BadValue.strings ["A"], Detail := reason }] ∧
        containsText reason "boom") ∧
      validate ⟨⟨Except.ok [NodePool.mk "A"], Except.error "boom"⟩⟩
        (PlatformAdmin.mk "Y" ["A"]) ≠ [] ∧
      ∀ gv, rejects (ValidateCreate gv ⟨⟨Except.ok [NodePool.mk "A"], Except.error "boom"⟩⟩
        (Object.platformAdmin (PlatformAdmin.mk "Y" ["A"])))) :=
  ⟨validate_fails_closed ⟨⟨Except.error "boom", Except.ok []⟩⟩ (PlatformAdmin.mk "Y" ["A"])
      "boom" (Or.inl rfl),
   validate_fails_closed ⟨⟨Except.ok [NodePool.mk "A"], Except.error "boom"⟩⟩
      (PlatformAdmin.mk "Y" ["A"]) "boom"
      (Or.inr ⟨[NodePool.mk "A"], rfl, by decide, rfl⟩)⟩

/-- C7: fail-fast conflict report. Whenever `validate` returns an error with
reason "already used by other platformadmin instance", the PlatformAdmin
listing succeeded, the result is that single error at `spec.nodePools`, and its
value is the single pool name `p` found thus: `o` is the first entry, in catalog
order, whose name differs from the candidate's and whose pool list shares a
name with the candidate's; `p` is the first name, in the candidate's own order,
that the pool list of `o` contains. -/
theorem validate_conflict_is_first (webhook : PlatformAdminHandler)
    (platformAdmin : PlatformAdmin) (e : FieldError)
    (he : e ∈ validate webhook platformAdmin)
    (hreason : e.Detail = "already used by other platformadmin instance") :
    ∃ admins o p, webhook.Client.ListPlatformAdmins = Except.ok admins ∧
      firstConflictingObject platformAdmin admins = some o ∧
      firstSharedPool platformAdmin o = some p ∧
      validate webhook platformAdmin =
        [{ ErrType := ErrorType.ErrorTypeInvalid, Field := "spec.nodePools",
           BadValue := BadValue.string p,
           Detail := "already used by other platformadmin instance" }] := by
  cases hp : webhook.Client.ListNodePools with
  | error err =>
    rw [validate_of_pool_listing_error webhook platformAdmin err hp, List.mem_singleton] at he
    rw [he] at hreason
    exact absurd hreason (listing_reason_ne_alreadyUsed err).1
  | ok nodePools =>
    by_cases hm : missingPools platformAdmin nodePools = []
    · cases ha : webhook.Client.ListPlatformAdmins with
      | error err =>
        rw [validate_of_admin_listing_error webhook platformAdmin nodePools err hp hm ha,
          List.mem_singleton] at he
        rw [he] at hreason
        exact absurd hreason (listing_reason_ne_alreadyUsed err).2
      | ok admins =>
        have hv := validate_of_scan webhook platformAdmin nodePools admins hp hm ha
        have hs := scanPlatformAdmins_eq platformAdmin admins
        cases ho : firstConflictingObject platformAdmin admins with
        | none =>
          rw [ho] at hs
          rw [hs] at hv
          rw [hv] at he
          exact absurd he (List.not_mem_nil e)
        | some o =>
          rw [ho, Option.some_bind] at hs
          cases hq : firstSharedPool platformAdmin o with
          | none =>
            rw [hq] at hs
            rw [hs] at hv
            rw [hv] at he
            exact absurd he (List.not_mem_nil e)
          | some p =>
            rw [hq] at hs
            rw [hs] at hv
            exact ⟨admins, o, p, rfl, ho, hq, hv⟩
    · rw [validate_of_missing webhook platformAdmin nodePools hp hm, List.mem_singleton] at he
      rw [he] at hreason
      exact absurd hreason (show reasonNotFound ≠ reasonAlreadyUsed by decide)

/-- Witness of C7, the scenario of the specification: pools A, B and C exist, X
claims A, the candidate Y claims A; the value is "A" at `spec.nodePools`. -/
theorem validate_conflict_is_first_witness :
    validate ⟨⟨Except.ok [NodePool.mk "A", NodePool.mk "B", NodePool.mk "C"],
        Except.ok [PlatformAdmin.mk "X" ["A"]]⟩⟩ (PlatformAdmin.mk "Y" ["A"]) =
      [{ ErrType := ErrorType.ErrorTypeInvalid, Field := "spec.nodePools",
         BadValue := BadValue.string "A",
         Detail := "already used by other platformadmin instance" }] ∧
    ∃ admins o p, (Except.ok [PlatformAdmin.mk "X" ["A"]] :
        Except String (List PlatformAdmin)) = Except.ok admins ∧
      firstConflictingObject (PlatformAdmin.mk "Y" ["A"]) admins = some o ∧
      firstSharedPool (PlatformAdmin.mk "Y" ["A"]) o = some p ∧
      validate ⟨⟨Except.ok [NodePool.mk "A", NodePool.mk "B", NodePool.mk "C"],
          Except.ok [PlatformAdmin.mk "X" ["A"]]⟩⟩ (PlatformAdmin.mk "Y" ["A"]) =
        [{ ErrType := ErrorType.ErrorTypeInvalid, Field := "spec.nodePools",
           BadValue := BadValue.string p,
           Detail := "already used by other platformadmin instance" }] :=
  ⟨by decide,
   validate_conflict_is_first
    ⟨⟨Except.ok [NodePool.mk "A", NodePool.mk "B", NodePool.mk "C"],
      Except.ok [PlatformAdmin.mk "X" ["A"]]⟩⟩ (PlatformAdmin.mk "Y" ["A"])
    { ErrType := ErrorType.ErrorTypeInvalid, Field := "spec.nodePools",
      BadValue := BadValue.string "A",
      Detail := "already used by other platformadmin instance" }
    (by decide) rfl⟩

/-- C8 as stated fails: a candidate with an empty pool list is rejected when
the pool listing fails (line 84), and also when the PlatformAdmin listing fails
(line 109); both listings are consulted before any name is looked at. -/
theorem validate_empty_pool_list_counterexample :
    (PlatformAdmin.mk "Y" []).NodePools = [] ∧
      validate ⟨⟨Except.error "timeout", Except.ok []⟩⟩ (PlatformAdmin.mk "Y" []) =
        [{ ErrType := ErrorType.ErrorTypeInvalid, Field := "spec.nodePools",
           BadValue := BadValue.strings [],
           Detail := "can not list nodepools, causetimeout" }] ∧
      validate ⟨⟨Except.ok [], Except.error "timeout"⟩⟩ (PlatformAdmin.mk "Y" []) =
        [{ ErrType := ErrorType.ErrorTypeInvalid, Field := "spec.nodePools",
           BadValue := BadValue.strings [],
           Detail := "can not list platformadmins, causetimeout" }] ∧
      ¬ ∀ (webhook : PlatformAdminHandler) (platformAdmin : PlatformAdmin),
        platformAdmin.NodePools = [] → validate webhook platformAdmin = [] := by
  refine ⟨rfl, by decide, by decide, ?_⟩
  intro h
  exact absurd (h ⟨⟨Except.error "timeout", Except.ok []⟩⟩ (PlatformAdmin.mk "Y" []) rfl)
    (by decide)

/-- C8, amended: for a candidate whose pool list is empty, `validate` returns
the empty error list exactly when both listings succeed, whatever the two
catalogs then contain; when the pool listing fails, or it succeeds and the
PlatformAdmin listing fails, `validate` returns exactly one error, at
`spec.nodePools`, whose value is the candidate's (empty) pool list and whose
reason names the listing that failed and contains the text of its error. -/
theorem validate_empty_pool_list (webhook : PlatformAdminHandler)
    (platformAdmin : PlatformAdmin) (hempty : platformAdmin.NodePools = []) :
    (validate webhook platformAdmin = [] ↔
      (∃ nodePools, webhook.Client.ListNodePools = Except.ok nodePools) ∧
        ∃ admins, webhook.Client.ListPlatformAdmins = Except.ok admins) ∧
    (∀ err, webhook.Client.ListNodePools = Except.error err →
      ∃ reason, validate webhook platformAdmin =
          [{ ErrType := ErrorType.ErrorTypeInvalid, Field := "spec.nodePools",
             BadValue := BadValue.strings [], Detail := reason }] ∧
        containsText reason "can not list nodepools" ∧ containsText reason err) ∧
    (∀ nodePools err, webhook.Client.ListNodePools = Except.ok nodePools →
      webhook.Client.ListPlatformAdmins = Except.error err →
      ∃ reason, validate webhook platformAdmin =
          [{ ErrType := ErrorType.ErrorTypeInvalid, Field := "spec.nodePools",
             BadValue := BadValue.strings [], Detail := reason }] ∧
        containsText reason "can not list platformadmins" ∧ containsText reason err) := by
  have hmiss : ∀ nodePools, missingPools platformAdmin nodePools = [] := by
    intro nodePools
    rw [missingPools_eq_nil, hempty]
    intro n hn
    exact absurd hn (List.not_mem_nil n)
  refine ⟨?_, ?_, ?_⟩
  · cases hp : webhook.Client.ListNodePools with
    | error err =>
      rw [validate_of_pool_listing_error webhook platformAdmin err hp]
      simp
    | ok nodePools =>
      cases ha : webhook.Client.ListPlatformAdmins with
      | error err =>
        rw [validate_of_admin_listing_error webhook platformAdmin nodePools err hp
          (hmiss nodePools) ha]
        simp
      | ok admins =>
        have hv : validate webhook platformAdmin = [] := by
          have hcat : webhook = ⟨⟨Except.ok nodePools, Except.ok admins⟩⟩ := by
            cases webhook with
            | mk c =>
              cases c with
              | mk a b =>
                simp only at hp ha
                rw [hp, ha]
          rw [hcat, validate_eq_nil_iff]
          constructor
          · intro n hn
            rw [hempty] at hn
            exact absurd hn (List.not_mem_nil n)
          · rintro other _ ⟨_, n, hn, _⟩
            rw [hempty] at hn
            exact absurd hn (List.not_mem_nil n)
        simp [hv]
  · intro err hp
    refine ⟨"can not list nodepools, cause" ++ err, ?_,
      containsText_append_left _ _ err (by decide), containsText_append_right _ _⟩
    rw [validate_of_pool_listing_error webhook platformAdmin err hp, hempty]
    rfl
  · intro nodePools err hp ha
    refine ⟨"can not list platformadmins, cause" ++ err, ?_,
      containsText_append_left _ _ err (by decide), containsText_append_right _ _⟩
    rw [validate_of_admin_listing_error webhook platformAdmin nodePools err hp
      (hmiss nodePools) ha, hempty]
    rfl

/-- Witness of C8, amended: the candidate with no pool passes against a catalog
where another object claims the only pool; it gets the error of the pool
listing when that one fails with "boom", and the error of the PlatformAdmin
listing when only that one fails with "boom". -/
theorem validate_empty_pool_list_witness :
    (PlatformAdmin.mk "Y" []).NodePools = [] ∧
      (validate ⟨⟨Except.ok [NodePool.mk "A"], Except.ok [PlatformAdmin.mk "X" ["A"]]⟩⟩
          (PlatformAdmin.mk "Y" []) = [] ↔
        (∃ nodePools, (Except.ok [NodePool.mk "A"] : Except String (List NodePool)) =
            Except.ok nodePools) ∧
          ∃ admins, (Except.ok [PlatformAdmin.mk "X" ["A"]] :
            Except String (List PlatformAdmin)) = Except.ok admins) ∧
      validate ⟨⟨Except.ok [NodePool.mk "A"], Except.ok [PlatformAdmin.mk "X" ["A"]]⟩⟩
          (PlatformAdmin.mk "Y" []) = [] ∧
      (∃ reason, validate ⟨⟨Except.error "boom", Except.ok []⟩⟩ (PlatformAdmin.mk "Y" []) =
          [{ ErrType := ErrorType.ErrorTypeInvalid, Field := "spec.nodePools",
             BadValue := BadValue.strings [], Detail := reason }] ∧
        containsText reason "can not list nodepools" ∧ containsText reason "boom") ∧
      (∃ reason, validate ⟨⟨Except.ok [NodePool.mk "A"], Except.error "boom"⟩⟩
            (PlatformAdmin.mk "Y" []) =
          [{ ErrType := ErrorType.ErrorTypeInvalid, Field := "spec.nodePools",
             BadValue := BadValue.strings [], Detail := reason }] ∧
        containsText reason "can not list platformadmins" ∧ containsText reason "boom") :=
  ⟨rfl,
   (validate_empty_pool_list
     ⟨⟨Except.ok [NodePool.mk "A"], Except.ok [PlatformAdmin.mk "X" ["A"]]⟩⟩
     (PlatformAdmin.mk "Y" []) rfl).1,
   by decide,
   (validate_empty_pool_list ⟨⟨Except.error "boom", Except.ok []⟩⟩
     (PlatformAdmin.mk "Y" []) rfl).2.1 "boom" rfl,
   (validate_empty_pool_list ⟨⟨Except.ok [NodePool.mk "A"], Except.error "boom"⟩⟩
     (PlatformAdmin.mk "Y" []) rfl).2.2 [NodePool.mk "A"] "boom" rfl rfl⟩

/-- C9, the code at the input of the scenario: when the pool listing fails with
the text "timeout", `validate` returns one error whose reason is
"can not list nodepools, causetimeout" (line 86 joins the two texts with no
blank), `ValidateCreate` rejects, and the reason does not contain
"can not list nodepools, cause timeout". -/
theorem validate_pool_listing_timeout (gv : GroupVersion) (platformAdmin : PlatformAdmin)
    (admins : Except String (List PlatformAdmin)) :
    validate ⟨⟨Except.error "timeout", admins⟩⟩ platformAdmin =
        [{ ErrType := ErrorType.ErrorTypeInvalid, Field := "spec.nodePools",
           BadValue := BadValue.strings platformAdmin.NodePools,
           Detail := "can not list nodepools, causetimeout" }] ∧
      rejects (ValidateCreate gv ⟨⟨Except.error "timeout", admins⟩⟩
        (Object.platformAdmin platformAdmin)) ∧
      ¬ containsText "can not list nodepools, causetimeout"
        "can not list nodepools, cause timeout" ∧
      containsText "can not list nodepools, causetimeout" "timeout" := by
  have hv := validate_of_pool_listing_error ⟨⟨Except.error "timeout", admins⟩⟩
    platformAdmin "timeout" rfl
  refine ⟨hv, ?_, by decide, by decide⟩
  rw [rejects_ValidateCreate_iff, hv]
  simp

/-- C10: a type mismatch is rejected before any validation. For an object that
is not a PlatformAdmin, `ValidateCreate` returns the bad-request error naming
its type; `ValidateUpdate` returns the bad-request error naming the type of the
new object when that one is not a PlatformAdmin (whatever the old object is),
and naming the type of the old object when only that one is not; the results
do not depend on the handler, hence on no answer of the two listings, nor on
the other, well-typed object. -/
theorem type_mismatch_is_bad_request (gv : GroupVersion) (webhook : PlatformAdminHandler)
    (typeName : String) :
    ValidateCreate gv webhook (Object.other typeName) =
        ([], some (APIError.BadRequest ("expected a PlatformAdmin but got a " ++ typeName))) ∧
      (∀ oldObj : Object, ValidateUpdate gv webhook oldObj (Object.other typeName) =
        ([], some (APIError.BadRequest ("expected a PlatformAdmin but got a " ++ typeName)))) ∧
      (∀ newPlatformAdmin : PlatformAdmin,
        ValidateUpdate gv webhook (Object.other typeName)
            (Object.platformAdmin newPlatformAdmin) =
          ([], some (APIError.BadRequest
            ("expected a PlatformAdmin but got a " ++ typeName)))) :=
  ⟨rfl, fun _ => rfl, fun _ => rfl⟩

/-! ## Further lemmas on the validator and the entry points -/

theorem validate_length_le_one (webhook : PlatformAdminHandler)
    (platformAdmin : PlatformAdmin) : (validate webhook platformAdmin).length ≤ 1 := by
  cases hp : webhook.Client.ListNodePools with
  | error err =>
    rw [validate_of_pool_listing_error webhook platformAdmin err hp]
    simp
  | ok nodePools =>
    by_cases hm : missingPools platformAdmin nodePools = []
    · cases ha : webhook.Client.ListPlatformAdmins with
      | error err =>
        rw [validate_of_admin_listing_error webhook platformAdmin nodePools err hp hm ha]
        simp
      | ok admins =>
        rw [validate_of_scan webhook platformAdmin nodePools admins hp hm ha]
        cases scanPlatformAdmins platformAdmin admins with
        | none => simp
        | some p => simp
    · rw [validate_of_missing webhook platformAdmin nodePools hp hm]
      simp

theorem ValidateUpdate_platformAdmin (gv : GroupVersion) (webhook : PlatformAdminHandler)
    (oldPlatformAdmin newPlatformAdmin : PlatformAdmin) :
    ValidateUpdate gv webhook (Object.platformAdmin oldPlatformAdmin)
        (Object.platformAdmin newPlatformAdmin) =
      if validate webhook newPlatformAdmin ++ validate webhook oldPlatformAdmin = [] then
        ([], none)
      else ([], some (APIError.Invalid (gv.WithKindGroupKind "PlatformAdmin")
        newPlatformAdmin.Name
        (validate webhook newPlatformAdmin ++ validate webhook oldPlatformAdmin))) := by
  unfold ValidateUpdate
  by_cases h : validate webhook newPlatformAdmin ++ validate webhook oldPlatformAdmin = []
  · simp only [h, List.length_nil, gt_iff_lt, lt_self_iff_false, if_false, if_true]
  · simp only [h, List.length_pos.2 h, gt_iff_lt, if_false, if_true, NewInvalid]

theorem carriedErrors_ValidateUpdate_length (gv : GroupVersion)
    (webhook : PlatformAdminHandler) (oldObj newObj : Object) :
    (carriedErrors (ValidateUpdate gv webhook oldObj newObj)).length ≤ 2 := by
  cases newObj with
  | other t => simp [ValidateUpdate, carriedErrors, NewBadRequest]
  | platformAdmin newPlatformAdmin =>
    cases oldObj with
    | other t => simp [ValidateUpdate, carriedErrors, NewBadRequest]
    | platformAdmin oldPlatformAdmin =>
      rw [ValidateUpdate_platformAdmin]
      have h1 := validate_length_le_one webhook newPlatformAdmin
      have h2 := validate_length_le_one webhook oldPlatformAdmin
      by_cases h : validate webhook newPlatformAdmin ++ validate webhook oldPlatformAdmin = []
      · simp [h, carriedErrors]
      · simp only [h, if_false, carriedErrors, List.length_append]
        omega

/-! ## Properties of the entry points and of the reported errors -/

/-- C11: for a PlatformAdmin, `ValidateCreate` rejects exactly when `validate`
returns a non-empty error list; when it rejects it returns the invalid error
that carries that whole list unchanged, the object's name and the PlatformAdmin
group and kind; when it does not, it returns no warnings and no error. -/
theorem ValidateCreate_rejects_iff_invalid (gv : GroupVersion)
    (webhook : PlatformAdminHandler) (platformAdmin : PlatformAdmin) :
    (rejects (ValidateCreate gv webhook (Object.platformAdmin platformAdmin)) ↔
      validate webhook platformAdmin ≠ []) ∧
    (validate webhook platformAdmin ≠ [] →
      ValidateCreate gv webhook (Object.platformAdmin platformAdmin) =
        ([], some (APIError.Invalid (GroupKind.mk gv.Group "PlatformAdmin")
          platformAdmin.Name (validate webhook platformAdmin)))) ∧
    (validate webhook platformAdmin = [] →
      ValidateCreate gv webhook (Object.platformAdmin platformAdmin) = ([], none)) := by
  refine ⟨rejects_ValidateCreate_iff gv webhook platformAdmin, ?_, ?_⟩
  · intro h
    rw [ValidateCreate_platformAdmin, if_neg h]
    rfl
  · intro h
    rw [ValidateCreate_platformAdmin, if_pos h]

/-- Witness of C11: pools A and B exist; Z claiming A and D is rejected with
the whole error list of `validate`, Z claiming A alone is accepted. -/
theorem ValidateCreate_rejects_iff_invalid_witness :
    validate ⟨⟨Except.ok [NodePool.mk "A", NodePool.mk "B"], Except.ok []⟩⟩
        (PlatformAdmin.mk "Z" ["A", "D"]) ≠ [] ∧
      ValidateCreate (GroupVersion.mk "iot.openyurt.io" "v1alpha1")
          ⟨⟨Except.ok [NodePool.mk "A", NodePool.mk "B"], Except.ok []⟩⟩
          (Object.platformAdmin (PlatformAdmin.mk "Z" ["A", "D"])) =
        ([], some (APIError.Invalid (GroupKind.mk "iot.openyurt.io" "PlatformAdmin") "Z"
          [{ ErrType := ErrorType.ErrorTypeInvalid, Field := "spec.nodePools",
             BadValue := BadValue.strings ["D"], Detail := "can not find the nodepools" }])) ∧
      validate ⟨⟨Except.ok [NodePool.mk "A", NodePool.mk "B"], Except.ok []⟩⟩
        (PlatformAdmin.mk "Z" ["A"]) = [] ∧
      ValidateCreate (GroupVersion.mk "iot.openyurt.io" "v1alpha1")
          ⟨⟨Except.ok [NodePool.mk "A", NodePool.mk "B"], Except.ok []⟩⟩
          (Object.platformAdmin (PlatformAdmin.mk "Z" ["A"])) = ([], none) :=
  ⟨by decide,
   ((ValidateCreate_rejects_iff_invalid (GroupVersion.mk "iot.openyurt.io" "v1alpha1")
      ⟨⟨Except.ok [NodePool.mk "A", NodePool.mk "B"], Except.ok []⟩⟩
      (PlatformAdmin.mk "Z" ["A", "D"])).2.1 (by decide)).trans (by decide),
   by decide,
   (ValidateCreate_rejects_iff_invalid (GroupVersion.mk "iot.openyurt.io" "v1alpha1")
      ⟨⟨Except.ok [NodePool.mk "A", NodePool.mk "B"], Except.ok []⟩⟩
      (PlatformAdmin.mk "Z" ["A"])).2.2 (by decide)⟩

/-- C12: `ValidateDelete` accepts, with no warnings and no error, every object
(a PlatformAdmin or not, valid or not) under every handler, hence whatever the
two listings would answer. -/
theorem ValidateDelete_accepts (webhook : PlatformAdminHandler) (obj : Object) :
    accepts (ValidateDelete webhook obj) ∧ ¬ rejects (ValidateDelete webhook obj) := by
  constructor
  · rfl
  · intro h
    exact h rfl

/-- C13: errors are reported in isolation. `validate` returns at most one error,
so any two errors of one result are the same error (an unknown-pool error never
comes with an already-claimed or a listing-failure error), and the error list
`ValidateUpdate` carries has at most two entries. -/
theorem validate_at_most_one_error (gv : GroupVersion) (webhook : PlatformAdminHandler)
    (platformAdmin : PlatformAdmin) :
    (validate webhook platformAdmin).length ≤ 1 ∧
      (∀ e₁ ∈ validate webhook platformAdmin, ∀ e₂ ∈ validate webhook platformAdmin,
        e₁ = e₂) ∧
      ∀ oldObj newObj : Object,
        (carriedErrors (ValidateUpdate gv webhook oldObj newObj)).length ≤ 2 := by
  have hlen := validate_length_le_one webhook platformAdmin
  refine ⟨hlen, ?_, fun oldObj newObj =>
    carriedErrors_ValidateUpdate_length gv webhook oldObj newObj⟩
  intro e₁ h₁ e₂ h₂
  cases hv : validate webhook platformAdmin with
  | nil =>
    rw [hv] at h₁
    exact absurd h₁ (List.not_mem_nil e₁)
  | cons x rest =>
    rw [hv] at hlen h₁ h₂
    have hrest : rest = [] := by
      cases rest with
      | nil => rfl
      | cons y ys => simp at hlen
    rw [hrest, List.mem_singleton] at h₁ h₂
    rw [h₁, h₂]

/-- Witness of C13: pool A exists and X claims it; the candidate Y claims A and
the unknown D and gets the unknown-pool error alone; an update from that state
to itself carries exactly two errors. -/
theorem validate_at_most_one_error_witness :
    validate ⟨⟨Except.ok [NodePool.mk "A"], Except.ok [PlatformAdmin.mk "X" ["A"]]⟩⟩
        (PlatformAdmin.mk "Y" ["A", "D"]) =
      [{ ErrType := ErrorType.ErrorTypeInvalid, Field := "spec.nodePools",
         BadValue := BadValue.strings ["D"], Detail := "can not find the nodepools" }] ∧
    (carriedErrors (ValidateUpdate (GroupVersion.mk "iot.openyurt.io" "v1alpha1")
      ⟨⟨Except.ok [NodePool.mk "A"], Except.ok [PlatformAdmin.mk "X" ["A"]]⟩⟩
      (Object.platformAdmin (PlatformAdmin.mk "Y" ["A", "D"]))
      (Object.platformAdmin (PlatformAdmin.mk "Y" ["A", "D"])))).length = 2 ∧
    (validate ⟨⟨Except.ok [NodePool.mk "A"], Except.ok [PlatformAdmin.mk "X" ["A"]]⟩⟩
        (PlatformAdmin.mk "Y" ["A", "D"])).length ≤ 1 :=
  ⟨by decide, by decide,
   (validate_at_most_one_error (GroupVersion.mk "iot.openyurt.io" "v1alpha1")
      ⟨⟨Except.ok [NodePool.mk "A"], Except.ok [PlatformAdmin.mk "X" ["A"]]⟩⟩
      (PlatformAdmin.mk "Y" ["A", "D"])).1⟩

/-! ## Lemmas on what the claim scan depends on -/

theorem scanPlatformAdmins_otherEntries (platformAdmin : PlatformAdmin)
    (admins : List PlatformAdmin) :
    scanPlatformAdmins platformAdmin (otherEntries platformAdmin admins) =
      scanPlatformAdmins platformAdmin admins := by
  induction admins with
  | nil => rfl
  | cons other rest ih =>
    unfold otherEntries at ih ⊢
    by_cases hn : platformAdmin.Name = other.Name
    · rw [List.filter_cons_of_neg (by simp [hn]), ih]
      conv => rhs; unfold scanPlatformAdmins
      simp [hn]
    · have hne : other.Name ≠ platformAdmin.Name := fun e => hn e.symm
      rw [List.filter_cons_of_pos (by simpa using hne)]
      unfold scanPlatformAdmins
      simp only [ne_eq, hn, not_false_eq_true, if_true]
      rw [ih]

theorem validate_congr_scan (platformAdmin : PlatformAdmin)
    (pools : Except String (List NodePool)) (admins₁ admins₂ : List PlatformAdmin)
    (h : scanPlatformAdmins platformAdmin admins₁ = scanPlatformAdmins platformAdmin admins₂) :
    validate ⟨⟨pools, Except.ok admins₁⟩⟩ platformAdmin =
      validate ⟨⟨pools, Except.ok admins₂⟩⟩ platformAdmin := by
  cases pools with
  | error err =>
    rw [validate_of_pool_listing_error ⟨⟨Except.error err, Except.ok admins₁⟩⟩ platformAdmin
      err rfl, validate_of_pool_listing_error ⟨⟨Except.error err, Except.ok admins₂⟩⟩
      platformAdmin err rfl]
  | ok nodePools =>
    by_cases hm : missingPools platformAdmin nodePools = []
    · rw [validate_of_scan ⟨⟨Except.ok nodePools, Except.ok admins₁⟩⟩ platformAdmin nodePools
        admins₁ rfl hm rfl, validate_of_scan ⟨⟨Except.ok nodePools, Except.ok admins₂⟩⟩
        platformAdmin nodePools admins₂ rfl hm rfl, h]
    · rw [validate_of_missing ⟨⟨Except.ok nodePools, Except.ok admins₁⟩⟩ platformAdmin
        nodePools rfl hm, validate_of_missing ⟨⟨Except.ok nodePools, Except.ok admins₂⟩⟩
        platformAdmin nodePools rfl hm]

theorem reasons_validate (platformAdmin : PlatformAdmin) (nodePools : List NodePool)
    (admins : List PlatformAdmin) :
    reasons (validate ⟨⟨Except.ok nodePools, Except.ok admins⟩⟩ platformAdmin) =
      if ∃ n ∈ platformAdmin.NodePools, n ∉ poolNames nodePools then [reasonNotFound]
      else if ∃ other ∈ admins, conflictsWith platformAdmin other then [reasonAlreadyUsed]
      else [] := by
  by_cases hm : missingPools platformAdmin nodePools = []
  · have hall := (missingPools_eq_nil platformAdmin nodePools).1 hm
    have h1 : ¬ ∃ n ∈ platformAdmin.NodePools, n ∉ poolNames nodePools := by
      rintro ⟨n, hn, habs⟩
      exact habs (hall n hn)
    rw [if_neg h1, validate_of_scan ⟨⟨Except.ok nodePools, Except.ok admins⟩⟩ platformAdmin
      nodePools admins rfl hm rfl]
    cases hs : scanPlatformAdmins platformAdmin admins with
    | none =>
      have h2 : ¬ ∃ other ∈ admins, conflictsWith platformAdmin other := by
        rintro ⟨other, ho, hc⟩
        exact (scanPlatformAdmins_eq_none platformAdmin admins).1 hs other ho hc
      rw [if_neg h2]
      rfl
    | some p =>
      have h2 : ∃ other ∈ admins, conflictsWith platformAdmin other := by
        by_contra hc
        push_neg at hc
        have := (scanPlatformAdmins_eq_none platformAdmin admins).2 hc
        rw [hs] at this
        exact absurd this (by simp)
      rw [if_pos h2]
      rfl
  · have h1 : ∃ n ∈ platformAdmin.NodePools, n ∉ poolNames nodePools := by
      by_contra hc
      push_neg at hc
      exact hm ((missingPools_eq_nil platformAdmin nodePools).2 hc)
    rw [if_pos h1, validate_of_missing ⟨⟨Except.ok nodePools, Except.ok admins⟩⟩ platformAdmin
      nodePools rfl hm]
    rfl

theorem conflictsWith_congr (p₁ p₂ a b : PlatformAdmin) (hp : sameObject p₁ p₂)
    (hab : sameObject a b) (h : conflictsWith p₁ a) : conflictsWith p₂ b := by
  obtain ⟨hne, n, hn, hmem⟩ := h
  refine ⟨?_, n, hp.2.1 n hn, hab.2.1 n hmem⟩
  rw [← hab.1, ← hp.1]
  exact hne

theorem sameObject_symm (a b : PlatformAdmin) (h : sameObject a b) : sameObject b a :=
  ⟨h.1.symm, h.2.2, h.2.1⟩

theorem sameNames_of_perm (l₁ l₂ : List String) (h : l₁.Perm l₂) : sameNames l₁ l₂ :=
  ⟨fun _ hn => h.mem_iff.1 hn, fun _ hn => h.mem_iff.2 hn⟩

theorem sameObject_refl (a : PlatformAdmin) : sameObject a a :=
  ⟨rfl, fun _ hn => hn, fun _ hn => hn⟩

theorem sameCatalog_of_perm (c₁ c₂ : List PlatformAdmin) (h : c₁.Perm c₂) :
    sameCatalog c₁ c₂ :=
  ⟨fun a ha => ⟨a, h.mem_iff.1 ha, sameObject_refl a⟩,
   fun b hb => ⟨b, h.mem_iff.2 hb, sameObject_refl b⟩⟩

theorem reasons_eq_nil (errs : ErrorList) : reasons errs = [] ↔ errs = [] := by
  unfold reasons
  exact List.map_eq_nil_iff

/-! ## Properties of the claim relation -/

/-- C14: the residual race as a two-run property. There are a pool catalog, a
PlatformAdmin catalog with distinct names where no pool is claimed twice, and
two candidates with different names whose pool lists share a name, such that
`validate` returns no error for each of them against that one snapshot, and
storing both gives a catalog where one pool is claimed by two different
objects. (Pools A and B; X claims B; the candidates Y and Z both claim A.) -/
theorem residual_race :
    ∃ (nodePools : List NodePool) (admins : List PlatformAdmin) (c₁ c₂ : PlatformAdmin),
      DistinctNames admins ∧ ExclusiveClaims admins ∧
      c₁.Name ≠ c₂.Name ∧ (∃ n ∈ c₁.NodePools, n ∈ c₂.NodePools) ∧
      validate ⟨⟨Except.ok nodePools, Except.ok admins⟩⟩ c₁ = [] ∧
      validate ⟨⟨Except.ok nodePools, Except.ok admins⟩⟩ c₂ = [] ∧
      DuplicateClaim (storeObject c₂ (storeObject c₁ admins)) ∧
      ¬ ExclusiveClaims (storeObject c₂ (storeObject c₁ admins)) := by
  refine ⟨[NodePool.mk "A", NodePool.mk "B"], [PlatformAdmin.mk "X" ["B"]],
    PlatformAdmin.mk "Y" ["A"], PlatformAdmin.mk "Z" ["A"], ?_, ?_, by decide, by decide,
    by decide, by decide, by decide, ?_⟩
  · unfold DistinctNames; decide
  · unfold ExclusiveClaims; simp
  · have hs : storeObject (PlatformAdmin.mk "Z" ["A"])
        (storeObject (PlatformAdmin.mk "Y" ["A"]) [PlatformAdmin.mk "X" ["B"]]) =
        [PlatformAdmin.mk "X" ["B"], PlatformAdmin.mk "Y" ["A"], PlatformAdmin.mk "Z" ["A"]] := by
      decide
    rw [hs]
    unfold ExclusiveClaims
    intro h
    have h2 := (List.pairwise_cons.1 (List.pairwise_cons.1 h).2).1
    exact h2 (PlatformAdmin.mk "Z" ["A"]) (by simp) "A" (by simp) (by simp)

/-- C15: entries with the candidate's name never conflict. For every answer of
the pool listing, two PlatformAdmin catalogs that agree once the entries with
the candidate's name are removed give the same result of `validate`; so adding
or removing such entries, whatever pools they claim, changes nothing. -/
theorem validate_ignores_same_name_entries (platformAdmin : PlatformAdmin)
    (pools : Except String (List NodePool)) (admins₁ admins₂ : List PlatformAdmin)
    (h : otherEntries platformAdmin admins₁ = otherEntries platformAdmin admins₂) :
    validate ⟨⟨pools, Except.ok admins₁⟩⟩ platformAdmin =
      validate ⟨⟨pools, Except.ok admins₂⟩⟩ platformAdmin := by
  apply validate_congr_scan
  rw [← scanPlatformAdmins_otherEntries platformAdmin admins₁,
    ← scanPlatformAdmins_otherEntries platformAdmin admins₂, h]

/-- Witness of C15: pools A and B exist and X claims B; the candidate Y claims
A, and the catalog also holds a stored Y claiming A and B. The stored Y is
ignored: the candidate passes, as it does against the catalog without it. -/
theorem validate_ignores_same_name_entries_witness :
    otherEntries (PlatformAdmin.mk "Y" ["A"])
        [PlatformAdmin.mk "Y" ["A", "B"], PlatformAdmin.mk "X" ["B"]] =
      otherEntries (PlatformAdmin.mk "Y" ["A"]) [PlatformAdmin.mk "X" ["B"]] ∧
    validate ⟨⟨Except.ok [NodePool.mk "A", NodePool.mk "B"],
        Except.ok [PlatformAdmin.mk "Y" ["A", "B"], PlatformAdmin.mk "X" ["B"]]⟩⟩
        (PlatformAdmin.mk "Y" ["A"]) =
      validate ⟨⟨Except.ok [NodePool.mk "A", NodePool.mk "B"],
        Except.ok [PlatformAdmin.mk "X" ["B"]]⟩⟩ (PlatformAdmin.mk "Y" ["A"]) ∧
    validate ⟨⟨Except.ok [NodePool.mk "A", NodePool.mk "B"],
        Except.ok [PlatformAdmin.mk "Y" ["A", "B"], PlatformAdmin.mk "X" ["B"]]⟩⟩
        (PlatformAdmin.mk "Y" ["A"]) = [] :=
  ⟨by decide,
   validate_ignores_same_name_entries (PlatformAdmin.mk "Y" ["A"])
     (Except.ok [NodePool.mk "A", NodePool.mk "B"])
     [PlatformAdmin.mk "Y" ["A", "B"], PlatformAdmin.mk "X" ["B"]]
     [PlatformAdmin.mk "X" ["B"]] (by decide),
   by decide⟩

/-- C16: with both listings succeeding, whether `validate` accepts and which
reason it reports depend on sets only. Two runs give the same list of reasons,
and accept together, when the candidates have the same name and the same set of
requested names, the pool catalogs hold the same set of pool names, and the
PlatformAdmin catalogs hold the same objects up to the order of the entries and
the order and repetition of the names in each pool list. -/
theorem validate_outcome_depends_on_sets (p₁ p₂ : PlatformAdmin)
    (nodePools₁ nodePools₂ : List NodePool) (admins₁ admins₂ : List PlatformAdmin)
    (hcand : sameObject p₁ p₂)
    (hpools : sameNames (poolNames nodePools₁) (poolNames nodePools₂))
    (hadmins : sameCatalog admins₁ admins₂) :
    reasons (validate ⟨⟨Except.ok nodePools₁, Except.ok admins₁⟩⟩ p₁) =
        reasons (validate ⟨⟨Except.ok nodePools₂, Except.ok admins₂⟩⟩ p₂) ∧
      (validate ⟨⟨Except.ok nodePools₁, Except.ok admins₁⟩⟩ p₁ = [] ↔
        validate ⟨⟨Except.ok nodePools₂, Except.ok admins₂⟩⟩ p₂ = []) := by
  have hmiss : (∃ n ∈ p₁.NodePools, n ∉ poolNames nodePools₁) ↔
      ∃ n ∈ p₂.NodePools, n ∉ poolNames nodePools₂ := by
    constructor
    · rintro ⟨n, hn, habs⟩
      exact ⟨n, hcand.2.1 n hn, fun hc => habs (hpools.2 n hc)⟩
    · rintro ⟨n, hn, habs⟩
      exact ⟨n, hcand.2.2 n hn, fun hc => habs (hpools.1 n hc)⟩
  have hconf : (∃ other ∈ admins₁, conflictsWith p₁ other) ↔
      ∃ other ∈ admins₂, conflictsWith p₂ other := by
    constructor
    · rintro ⟨a, ha, hc⟩
      obtain ⟨b, hb, hab⟩ := hadmins.1 a ha
      exact ⟨b, hb, conflictsWith_congr p₁ p₂ a b hcand hab hc⟩
    · rintro ⟨b, hb, hc⟩
      obtain ⟨a, ha, hab⟩ := hadmins.2 b hb
      exact ⟨a, ha, conflictsWith_congr p₂ p₁ b a (sameObject_symm p₁ p₂ hcand)
        (sameObject_symm a b hab) hc⟩
  have hreasons : reasons (validate ⟨⟨Except.ok nodePools₁, Except.ok admins₁⟩⟩ p₁) =
      reasons (validate ⟨⟨Except.ok nodePools₂, Except.ok admins₂⟩⟩ p₂) := by
    rw [reasons_validate, reasons_validate]
    by_cases h1 : ∃ n ∈ p₁.NodePools, n ∉ poolNames nodePools₁
    · rw [if_pos h1, if_pos (hmiss.1 h1)]
    · rw [if_neg h1, if_neg (fun hc => h1 (hmiss.2 hc))]
      by_cases h2 : ∃ other ∈ admins₁, conflictsWith p₁ other
      · rw [if_pos h2, if_pos (hconf.1 h2)]
      · rw [if_neg h2, if_neg (fun hc => h2 (hconf.2 hc))]
  refine ⟨hreasons, ?_⟩
  rw [← reasons_eq_nil, ← reasons_eq_nil, hreasons]

/-- Witness of C16: the candidate Y claiming A and B against pools A, B, C with
X claiming C and Z claiming D and E, and the same run with every list
reordered and A repeated, are both accepted; Y listing the existing, unclaimed
pool A twice is accepted; against X claiming A and B, the candidates Y with
pools A, B and Y with pools B, A are rejected for the same reason though the
reported value differs. -/
theorem validate_outcome_depends_on_sets_witness :
    (reasons (validate ⟨⟨Except.ok [NodePool.mk "A", NodePool.mk "B", NodePool.mk "C"],
          Except.ok [PlatformAdmin.mk "X" ["C"], PlatformAdmin.mk "Z" ["D", "E"]]⟩⟩
          (PlatformAdmin.mk "Y" ["A", "B"])) =
        reasons (validate ⟨⟨Except.ok [NodePool.mk "C", NodePool.mk "B", NodePool.mk "A",
            NodePool.mk "A"],
          Except.ok [PlatformAdmin.mk "Z" ["E", "D"], PlatformAdmin.mk "X" ["C"]]⟩⟩
          (PlatformAdmin.mk "Y" ["B", "A", "A"])) ∧
      (validate ⟨⟨Except.ok [NodePool.mk "A", NodePool.mk "B", NodePool.mk "C"],
          Except.ok [PlatformAdmin.mk "X" ["C"], PlatformAdmin.mk "Z" ["D", "E"]]⟩⟩
          (PlatformAdmin.mk "Y" ["A", "B"]) = [] ↔
        validate ⟨⟨Except.ok [NodePool.mk "C", NodePool.mk "B", NodePool.mk "A",
            NodePool.mk "A"],
          Except.ok [PlatformAdmin.mk "Z" ["E", "D"], PlatformAdmin.mk "X" ["C"]]⟩⟩
          (PlatformAdmin.mk "Y" ["B", "A", "A"]) = [])) ∧
    validate ⟨⟨Except.ok [NodePool.mk "A"], Except.ok []⟩⟩ (PlatformAdmin.mk "Y" ["A", "A"]) =
      [] ∧
    validate ⟨⟨Except.ok [NodePool.mk "A", NodePool.mk "B"],
        Except.ok [PlatformAdmin.mk "X" ["A", "B"]]⟩⟩ (PlatformAdmin.mk "Y" ["A", "B"]) =
      [{ ErrType := ErrorType.ErrorTypeInvalid, Field := "spec.nodePools",
         BadValue := BadValue.string "A",
         Detail := "already used by other platformadmin instance" }] ∧
    validate ⟨⟨Except.ok [NodePool.mk "A", NodePool.mk "B"],
        Except.ok [PlatformAdmin.mk "X" ["A", "B"]]⟩⟩ (PlatformAdmin.mk "Y" ["B", "A"]) =
      [{ ErrType := ErrorType.ErrorTypeInvalid, Field := "spec.nodePools",
         BadValue := BadValue.string "B",
         Detail := "already used by other platformadmin instance" }] :=
  ⟨validate_outcome_depends_on_sets (PlatformAdmin.mk "Y" ["A", "B"])
      (PlatformAdmin.mk "Y" ["B", "A", "A"])
      [NodePool.mk "A", NodePool.mk "B", NodePool.mk "C"]
      [NodePool.mk "C", NodePool.mk "B", NodePool.mk "A", NodePool.mk "A"]
      [PlatformAdmin.mk "X" ["C"], PlatformAdmin.mk "Z" ["D", "E"]]
      [PlatformAdmin.mk "Z" ["E", "D"], PlatformAdmin.mk "X" ["C"]]
      (by decide) (by decide) (by decide),
   by decide, by decide, by decide⟩

end PlatformAdminWebhook
